import Mathlib

/-!
Verification of the poryaaaa M4A sound-engine core against its specification.

The C sources under `src/plugin/` are shallowly embedded: machine integers
become `ℕ`/`ℤ` with explicit wraparound (`% 256`, `% 2^32`) exactly where the
C code truncates, pointers into sample buffers become list offsets, and the
engine's `float`/`double` arithmetic is idealised as exact rational (or real)
arithmetic; every place where that idealisation matters is noted at the
definition.  Each definition cites the C function it embeds.
-/

/-! ## Machine-integer helpers -/

/-- Truncation to `uint8_t` (assignment to a `uint8_t` lvalue in C). -/
def u8 (x : ℕ) : ℕ := x % 256

/-- Truncation to `uint32_t`. -/
def u32 (x : ℕ) : ℕ := x % 4294967296

/-- Reinterpret a `uint8_t` value as `int8_t` (two's complement). -/
def i8ofByte (b : ℕ) : ℤ := if b % 256 < 128 then (b % 256 : ℤ) else (b % 256 : ℤ) - 256

/-- Truncating cast of a signed value to `int8_t` (two's complement wrap). -/
def i8ofInt (x : ℤ) : ℤ := (x + 128).emod 256 - 128

/-- Truncating cast of a signed value to `int16_t` (two's complement wrap). -/
def i16ofInt (x : ℤ) : ℤ := (x + 32768).emod 65536 - 32768

/-- Arithmetic right shift on a signed value (floor division by `2^k`),
the semantics of `>>` on a negative `int` on the targets this code supports. -/
def sar (x : ℤ) (k : ℕ) : ℤ := Int.fdiv x (2 ^ k)

/-- Clamp to the `int8_t` range, as the reverb write-back does. -/
def clampI8 (x : ℤ) : ℤ := max (-128) (min 127 x)

/-! ## Channel status flags (m4a_engine.h) -/

def CHN_START : ℕ := 0x80
def CHN_STOP : ℕ := 0x40
def CHN_LOOP : ℕ := 0x10
def CHN_IEC : ℕ := 0x04
def CHN_ENV_MASK : ℕ := 0x03
def CHN_ENV_ATTACK : ℕ := 0x03
def CHN_ENV_DECAY : ℕ := 0x02
def CHN_ENV_SUSTAIN : ℕ := 0x01
def CHN_ON : ℕ := CHN_START ||| CHN_STOP ||| CHN_IEC ||| CHN_ENV_MASK

def VOICE_TYPE_FIX : ℕ := 0x08

/-! ## WaveData and the PCM channel (m4a_engine.h) -/

/-- The `WaveData` from m4a_engine.h.  `data` is the sample byte array including
the trailing guard byte; samples are `int8_t` values. -/
structure WaveData where
  type : ℕ
  status : ℕ
  freq : ℕ
  loopStart : ℕ
  size : ℕ
  data : List ℤ
deriving Repr, DecidableEq

/-- The `M4APCMChannel` from m4a_engine.h.  `currentPointer` and `loopStart` are
offsets into `wav.data` (the C code stores raw pointers into that array). -/
structure M4APCMChannel where
  status : ℕ
  type : ℕ
  rightVolume : ℕ
  leftVolume : ℕ
  attack : ℕ
  decay : ℕ
  sustain : ℕ
  release : ℕ
  key : ℕ
  envelopeVolume : ℕ
  envelopeVolumeRight : ℕ
  envelopeVolumeLeft : ℕ
  pseudoEchoVolume : ℕ
  pseudoEchoLength : ℕ
  midiKey : ℕ
  velocity : ℕ
  priority : ℕ
  rhythmPan : ℤ
  gateTime : ℕ
  wav : Option WaveData
  currentPointer : ℕ
  count : ℤ
  fw : ℕ
  frequency : ℕ
  trackIndex : ℕ
  isLoop : Bool
  loopLen : ℤ
  loopStart : ℕ
deriving Repr, DecidableEq

/-- The shared tail of `m4a_pcm_channel_tick` (m4a_channel.c:125-131): store
the envelope volume and recompute the per-channel left/right volumes. -/
def pcmTickFinish (ch : M4APCMChannel) (masterVolume envVol : ℕ) : M4APCMChannel :=
  let vol := ((masterVolume + 1) * envVol) >>> 4
  { ch with
    envelopeVolume := envVol
    envelopeVolumeRight := (ch.rightVolume * vol) >>> 8
    envelopeVolumeLeft := (ch.leftVolume * vol) >>> 8 }

/-- The body of `m4a_pcm_channel_tick` after the `CHN_START` handling
(m4a_channel.c:79-131): pseudo-echo countdown, release, decay, attack,
sustain, then the final volume computation.  Early `return`s in the C code
(deactivations) skip `pcmTickFinish`, leaving the envelope volume fields as
they were. -/
def pcmTickEnvelope (ch : M4APCMChannel) (masterVolume envVol : ℕ) : M4APCMChannel :=
  if ch.status &&& CHN_IEC ≠ 0 then
    let len := u8 (ch.pseudoEchoLength + 255)
    if len = 0 then { ch with pseudoEchoLength := len, status := 0 }
    else pcmTickFinish { ch with pseudoEchoLength := len } masterVolume envVol
  else if ch.status &&& CHN_STOP ≠ 0 then
    let envVol := (envVol * ch.release) >>> 8
    if envVol ≤ ch.pseudoEchoVolume then
      if ch.pseudoEchoVolume = 0 then { ch with status := 0 }
      else pcmTickFinish { ch with status := ch.status ||| CHN_IEC }
             masterVolume ch.pseudoEchoVolume
    else pcmTickFinish ch masterVolume envVol
  else
    let envState := ch.status &&& CHN_ENV_MASK
    if envState = CHN_ENV_DECAY then
      let envVol := (envVol * ch.decay) >>> 8
      if envVol ≤ ch.sustain then
        if ch.sustain = 0 then
          if ch.pseudoEchoVolume = 0 then { ch with status := 0 }
          else pcmTickFinish
                 { ch with status := (ch.status &&& 0xFC) ||| CHN_IEC }
                 masterVolume ch.pseudoEchoVolume
        else pcmTickFinish { ch with status := ch.status - 1 } masterVolume ch.sustain
      else pcmTickFinish ch masterVolume envVol
    else if envState = CHN_ENV_ATTACK then
      let envVol := u8 (envVol + ch.attack)
      if 0xFF ≤ envVol then
        pcmTickFinish { ch with status := ch.status - 1 } masterVolume 0xFF
      else pcmTickFinish ch masterVolume envVol
    else pcmTickFinish ch masterVolume envVol

/-- The `m4a_pcm_channel_tick` (m4a_channel.c:57-132), the ~60 Hz PCM envelope
step.  `envVol` is a `uint8_t` local, so the attack addition truncates to
eight bits (`% 256`) exactly as the C assignment does. -/
def m4a_pcm_channel_tick (ch : M4APCMChannel) (masterVolume : ℕ) : M4APCMChannel :=
  if ch.status &&& CHN_ON = 0 then ch
  else if ch.status &&& CHN_START ≠ 0 then
    -- lines 64-77: immediate stop, or restart into Attack with envVol = 0
    if ch.status &&& CHN_STOP ≠ 0 then { ch with status := 0 }
    else
      pcmTickEnvelope
        { ch with
          status := CHN_ENV_ATTACK ||| (if ch.isLoop then CHN_LOOP else 0)
          fw := 0 }
        masterVolume 0
  else pcmTickEnvelope ch masterVolume ch.envelopeVolume

/-- The `while (count <= 0) count += ch->loopLen;` loop in
`m4a_pcm_channel_render` (m4a_channel.c:180-181). -/
def wrapCount (loopLen count : ℤ) : ℤ :=
  if h : 0 < loopLen ∧ count ≤ 0 then wrapCount loopLen (count + loopLen) else count
termination_by (1 - count).toNat
decreasing_by omega

/-- Sample byte under a PCM channel's `currentPointer` plus `i`
(a pointer into `wav.data` in the C code; offset here). -/
def pcmDataAt (ch : M4APCMChannel) (i : ℕ) : ℤ :=
  ((ch.wav.map WaveData.data).getD []).getD i 0

/-- The `m4a_pcm_channel_render` (m4a_channel.c:143-194): one output sample of the
interpolating PCM mixer, returning the advanced channel and the two mix
accumulators. -/
def m4a_pcm_channel_render (ch : M4APCMChannel) (mixL mixR : ℤ) :
    M4APCMChannel × ℤ × ℤ :=
  if ch.status &&& CHN_ON = 0 ∨ ch.status &&& CHN_START ≠ 0 then (ch, mixL, mixR)
  else
    let ptr := ch.currentPointer
    let fw := ch.fw
    let count := ch.count
    let sample : ℤ :=
      if ch.type &&& VOICE_TYPE_FIX ≠ 0 then pcmDataAt ch ptr
      else
        let s0 := pcmDataAt ch ptr
        let s1 := pcmDataAt ch (ptr + 1)
        s0 + sar ((s1 - s0) * (fw : ℤ)) 23
    let mixR := mixR + sar (sample * ch.envelopeVolumeRight) 8
    let mixL := mixL + sar (sample * ch.envelopeVolumeLeft) 8
    let fw := u32 (fw + ch.frequency)
    let advance := fw >>> 23
    if advance = 0 then ({ ch with fw := fw }, mixL, mixR)
    else
      let fw := fw &&& 0x7FFFFF
      let count := count - (advance : ℤ)
      if count ≤ 0 then
        if ch.isLoop = true ∧ 0 < ch.loopLen then
          let count := wrapCount ch.loopLen count
          ({ ch with
             currentPointer := ch.loopStart + (ch.loopLen - count).toNat
             fw := fw
             count := count }, mixL, mixR)
        else ({ ch with status := 0, fw := fw, count := count }, mixL, mixR)
      else ({ ch with currentPointer := ptr + advance, fw := fw, count := count }, mixL, mixR)

/-! ## CGB channel (m4a_engine.h, m4a_channel.c) -/

/-- The `M4ACGBChannel` from m4a_engine.h.  `wavePointer` is the small integer the
engine stores in the pointer slot for duty/period, or an identifier for the
programmable-wave table. -/
structure M4ACGBChannel where
  status : ℕ
  type : ℕ
  rightVolume : ℕ
  leftVolume : ℕ
  attack : ℕ
  decay : ℕ
  sustain : ℕ
  release : ℕ
  key : ℕ
  envelopeVolume : ℕ
  envelopeGoal : ℕ
  envelopeCounter : ℕ
  pseudoEchoVolume : ℕ
  pseudoEchoLength : ℕ
  midiKey : ℕ
  velocity : ℕ
  priority : ℕ
  rhythmPan : ℤ
  gateTime : ℕ
  sustainGoal : ℕ
  length : ℕ
  sweep : ℕ
  dutyCycle : ℕ
  pan : ℕ
  panMask : ℕ
  modify : ℕ
  frequency : ℕ
  phase : ℕ
  wavePointer : ℕ
  lfsr : ℕ
  trackIndex : ℕ
  declickSample : ℤ
  declickSamplesRemaining : ℤ
deriving Repr, DecidableEq

/-- The `cgb_pan` (m4a_channel.c:247-264): hard-pan detection.  Returns the
channel (whose `pan` is written only in the hard-panned cases) and the C
return value as a `Bool`. -/
def cgb_pan (ch : M4ACGBChannel) : M4ACGBChannel × Bool :=
  if ch.leftVolume ≤ ch.rightVolume then
    if ch.leftVolume ≤ ch.rightVolume / 2 then ({ ch with pan := 0x0F }, true)
    else (ch, false)
  else
    if ch.rightVolume ≤ ch.leftVolume / 2 then ({ ch with pan := 0xF0 }, true)
    else (ch, false)

/-- The `m4a_cgb_mod_vol` (m4a_channel.c:271-285): derive the NR51 pan bits and
the 4-bit envelope goal from the software left/right volumes.  `sustainGoal`
is a `uint8_t` field, hence the `u8` truncation on its assignment. -/
def m4a_cgb_mod_vol (ch : M4ACGBChannel) : M4ACGBChannel :=
  let p := cgb_pan ch
  let ch :=
    if p.2 = false then
      { p.1 with pan := 0xFF, envelopeGoal := (p.1.leftVolume + p.1.rightVolume) / 16 }
    else
      { p.1 with
        envelopeGoal := min ((p.1.leftVolume + p.1.rightVolume) / 16) 15 }
  let ch := { ch with sustainGoal := u8 ((ch.envelopeGoal * ch.sustain + 15) >>> 4) }
  { ch with pan := ch.pan &&& ch.panMask }

/-! ## Reverb (m4a_reverb.h, m4a_reverb.c) -/

/-- The `M4AReverb` from m4a_reverb.h.  `buffer = none` models a NULL buffer
pointer; otherwise the list holds the interleaved stereo `int8_t` delay
line of length `2 * bufferSize`. -/
structure M4AReverb where
  buffer : Option (List ℤ)
  bufferSize : ℕ
  frameSize : ℕ
  pos : ℕ
  amount : ℕ
deriving Repr, DecidableEq

/-- The `m4a_reverb_process` (m4a_reverb.c:75-115): one stereo sample of the
4-tap GBA reverb.  Returns the updated reverb state and the two accumulators. -/
def m4a_reverb_process (rv : M4AReverb) (sampleL sampleR : ℤ) :
    M4AReverb × ℤ × ℤ :=
  match rv.buffer with
  | none => (rv, sampleL, sampleR)
  | some buf =>
    if rv.amount = 0 then (rv, sampleL, sampleR)
    else
      let pos := rv.pos
      let idx := pos * 2
      let otherPos := (pos + rv.frameSize) % rv.bufferSize
      let otherIdx := otherPos * 2
      let sum := buf.getD idx 0 + buf.getD (idx + 1) 0
               + buf.getD otherIdx 0 + buf.getD (otherIdx + 1) 0
      let wet := sar (sum * rv.amount) 9
      let outL := sampleL + wet
      let outR := sampleR + wet
      let buf := (buf.set idx (clampI8 outL)).set (idx + 1) (clampI8 outR)
      let pos := if rv.bufferSize ≤ pos + 1 then 0 else pos + 1
      ({ rv with buffer := some buf, pos := pos }, outL, outR)

/-! ## Pitch tables (m4a_tables.h)

The table *values* are not part of `src/` — m4a_tables.h only declares them
`extern`, and the translation unit defining them is absent.  They are
modelled from the spec (§4.1) and from the expectations in
src/test/test_engine.c; no theorem below depends on the numeric entries. -/

/-- Modelled from the spec: `gScaleTable[179]`, "upper nibble = right-shift
amount for the octave, low nibble = entry into gFreqTable[16]".  The shape
matches src/test/test_engine.c (`gScaleTable[0] = 0xE0`, `[12] = 0xD0`,
`[60] = 0x90`, `[168] = 0x00`).  The defining source file is missing from
src/. -/
def gScaleTable (k : ℕ) : ℕ := 16 * (14 - k / 12) + k % 12

/-- Modelled from the spec: `gFreqTable[16]`, "32-bit entries, the twelve-tone
equal-tempered semitone ratios in Q32" (here `round (2^31 * 2^(i/12))`).
The defining source file is missing from src/. -/
def gFreqTable (i : ℕ) : ℕ :=
  [2147483648, 2275179671, 2410468894, 2553802834,
   2705659852, 2866546760, 3037000500, 3217589947,
   3408917802, 3611622603, 3826380858, 4053909305,
   4294967296, 4550359342, 4820937788, 5107605667].getD i 0 % 4294967296

/-- Modelled from the spec: `gCgbScaleTable`, "analogous, for CGB (shorter
range)".  The defining source file is missing from src/. -/
def gCgbScaleTable (k : ℕ) : ℕ := 16 * (10 - k / 12) + k % 12

/-- Modelled from the spec: `gCgbFreqTable`, 16-bit equal-tempered entries.
The defining source file is missing from src/. -/
def gCgbFreqTable (i : ℕ) : ℤ :=
  [4096, 4340, 4598, 4871, 5161, 5468, 5793, 6137,
   6502, 6889, 7298, 7732, 8192, 8679, 9195, 9742].getD i 0

/-- Modelled from the spec: `gNoiseTable[60]`, "maps key − 21 into the packed
NR43 divisor/shift byte".  Entries keep bit 3 clear, as
m4a_engine.c:512-514 documents.  The defining source file is missing from
src/. -/
def gNoiseTable (k : ℕ) : ℕ := ((k / 3) % 16) * 16 + k % 3

/-- The `umul3232H32` (m4a_engine.h:266-269): high 32 bits of a 32×32 multiply. -/
def umul3232H32 (a b : ℕ) : ℕ := (u32 a * u32 b) >>> 32

/-- The `m4a_midi_key_to_freq` (m4a_engine.c:12-29): MIDI key + fine adjust to a
PCM frequency word.  `val2 - val1` is a `uint32_t` subtraction, hence the
wraparound difference. -/
def m4a_midi_key_to_freq (wav : WaveData) (key fineAdjust : ℕ) : ℕ :=
  let key' := if 178 < key then 178 else key
  let fineAdjustShifted := if 178 < key then u32 (255 <<< 24) else u32 (fineAdjust <<< 24)
  let v1 := gScaleTable key'
  let val1 := gFreqTable (v1 &&& 0xF) >>> (v1 >>> 4)
  let v2 := gScaleTable (key' + 1)
  let val2 := gFreqTable (v2 &&& 0xF) >>> (v2 >>> 4)
  umul3232H32 wav.freq (val1 + umul3232H32 (u32 (val2 + 4294967296 - val1)) fineAdjustShifted)

/-- The `m4a_midi_key_to_cgb_freq` (m4a_engine.c:34-68).  The square/wave branch
uses `int32_t` arithmetic; the arithmetic shift is `sar`. -/
def m4a_midi_key_to_cgb_freq (chanNum key fineAdjust : ℕ) : ℕ :=
  if chanNum = 4 then
    let key' := if key ≤ 20 then 0 else min (key - 21) 59
    gNoiseTable key'
  else
    let key' := if key ≤ 35 then 0 else min (key - 36) 130
    let fine := if key ≤ 35 then 0 else if 130 < key - 36 then 255 else fineAdjust
    let v1 := gCgbScaleTable key'
    let val1 := sar (gCgbFreqTable (v1 &&& 0xF)) (v1 >>> 4)
    let v2 := gCgbScaleTable (key' + 1)
    let val2 := sar (gCgbFreqTable (v2 &&& 0xF)) (v2 >>> 4)
    ((val1 + sar ((fine : ℤ) * (val2 - val1)) 8 + 2048).emod 4294967296).toNat

/-- The `pcmFreq` as computed at m4a_engine.c:429: GBA PCM rate index 4,
`(597275 * 224 + 5000) / 10000` in integer arithmetic. -/
def enginePcmFreq : ℕ := (597275 * 224 + 5000) / 10000

/-- The `divFreq` as computed at m4a_engine.c:439. -/
def engineDivFreq : ℕ := (16777216 / enginePcmFreq + 1) >>> 1

/-- The frequency word installed by `m4a_engine_note_on` for a PCM
DirectSound voice (m4a_engine.c:427-443), as a function of the voice type,
the sample, the transposed key (`finalKey`), the track's fine pitch and the
host sample rate.  The C code computes `scale = pcmFreq / sampleRate` in
`float` and truncates the product to `uint32_t`; the float arithmetic is
idealised as exact rational arithmetic and the cast as `Int.toNat ∘ ⌊·⌋`
(no-overflow idealisation). -/
def m4a_engine_note_on_frequency (voiceType : ℕ) (wav : WaveData)
    (finalKey pitM : ℕ) (sampleRate : ℚ) : ℕ :=
  let scale : ℚ := (enginePcmFreq : ℚ) / sampleRate
  if voiceType &&& VOICE_TYPE_FIX ≠ 0 then
    (⌊(0x800000 : ℚ) * scale⌋).toNat
  else
    let freq := m4a_midi_key_to_freq wav finalKey pitM
    (⌊((freq * engineDivFreq : ℕ) : ℚ) * scale⌋).toNat

/-- The note-on frequency rule exactly as the claim C1 states it: for FIX
voices `0x800000 * host_rate / 13379`, otherwise
`midiKeyToFreq(wav, key) * divFreq * host_rate / 13379` with
`divFreq = round(2^24 / pcmFreq / 2)` and `pcmFreq = 13379`. -/
def spec_note_on_frequency (voiceType : ℕ) (wav : WaveData)
    (finalKey pitM : ℕ) (sampleRate : ℚ) : ℕ :=
  if voiceType &&& VOICE_TYPE_FIX ≠ 0 then
    (⌊(0x800000 : ℚ) * sampleRate / 13379⌋).toNat
  else
    let divFreq : ℤ := round ((2 ^ 24 : ℚ) / 13379 / 2)
    (⌊(m4a_midi_key_to_freq wav finalKey pitM : ℚ) * divFreq * sampleRate / 13379⌋).toNat

/-- The note-on frequency rule as amended: the host-rate ratio runs the other
way (`pcmFreq / host_rate`), matching the code's `scale`. -/
def spec_amended_note_on_frequency (voiceType : ℕ) (wav : WaveData)
    (finalKey pitM : ℕ) (sampleRate : ℚ) : ℕ :=
  if voiceType &&& VOICE_TYPE_FIX ≠ 0 then
    (⌊(0x800000 : ℚ) * 13379 / sampleRate⌋).toNat
  else
    let divFreq : ℤ := round ((2 ^ 24 : ℚ) / 13379 / 2)
    (⌊(m4a_midi_key_to_freq wav finalKey pitM : ℚ) * divFreq * 13379 / sampleRate⌋).toNat

/-! ## Wave asset loader (voicegroup_loader.c) -/

/-- Little-endian 32-bit word from four bytes. -/
def leU32 (b0 b1 b2 b3 : ℕ) : ℕ := b0 + b1 * 256 + b2 * 65536 + b3 * 16777216

/-- The pitch-word computation of `load_wav_from_path`
(voicegroup_loader.c:944-954).  `agbp` is `some v` when an `agbp` chunk with
value `v` was parsed and `none` otherwise; the C chunk parser leaves its
`agbPitch` local at `0` in the absent case, so the guard tests the *value*,
not the presence.  The `double` arithmetic (`pow`) is idealised as exact real
arithmetic; the `(uint32_t)` cast of the positive result is `Int.toNat ∘ ⌊·⌋`
(truncation toward zero, no-overflow idealisation). -/
noncomputable def load_wav_pitch_word (agbp : Option ℕ)
    (midiKey midiPitchFraction sampleRate : ℕ) : ℕ :=
  let agbPitch := agbp.getD 0
  if agbPitch ≠ 0 then agbPitch
  else if midiKey = 60 ∧ midiPitchFraction = 0 then sampleRate * 1024
  else
    let tuning : ℝ := (midiPitchFraction : ℝ) / (4294967296 * 100)
    let pitch : ℝ :=
      (sampleRate : ℝ) * (2 : ℝ) ^ (((60 : ℝ) - midiKey) / 12 + tuning / 1200)
    (⌊pitch * 1024⌋).toNat

/-- The pitch-word rule exactly as claim C3 states it: a *present* `agbp`
chunk always wins; otherwise `round(sampleRate * 1024)` for root key 60 with
zero fraction; otherwise
`round(sampleRate * 1024 * 2^((60 − midiKey)/12 + (midiPitchFraction/2^32)/100/12))`. -/
noncomputable def spec_wav_pitch_word (agbp : Option ℕ)
    (midiKey midiPitchFraction sampleRate : ℕ) : ℕ :=
  match agbp with
  | some v => v
  | none =>
    if midiKey = 60 ∧ midiPitchFraction = 0 then
      (round ((sampleRate : ℝ) * 1024)).toNat
    else
      (round ((sampleRate : ℝ) * 1024 *
        (2 : ℝ) ^ (((60 : ℝ) - midiKey) / 12 +
          ((midiPitchFraction : ℝ) / 4294967296) / 100 / 12))).toNat

/-- The pitch-word rule as amended: an `agbp` chunk wins only when its value
is nonzero; the rounding is truncation; and the pitch-fraction term is scaled
by `((frac/2^32)/100)/1200`, matching the code. -/
noncomputable def spec_amended_wav_pitch_word (agbp : Option ℕ)
    (midiKey midiPitchFraction sampleRate : ℕ) : ℕ :=
  if agbp.getD 0 ≠ 0 then agbp.getD 0
  else if midiKey = 60 ∧ midiPitchFraction = 0 then sampleRate * 1024
  else
    (⌊(sampleRate : ℝ) * 1024 *
      (2 : ℝ) ^ (((60 : ℝ) - midiKey) / 12 +
        (((midiPitchFraction : ℝ) / 4294967296) / 100) / 1200)⌋).toNat

/-- Conversion of one raw sample to `int8_t`
(voicegroup_loader.c:989-1031), integer PCM formats (`fmtTag = 1`).
The float formats (`fmtTag = 3`) decode IEEE bit patterns through `double`
arithmetic and are not modelled (no claim depends on them). -/
def decodeSample (fmtTag bps : ℕ) (bytes : List ℕ) : ℤ :=
  if fmtTag = 1 then
    if bps = 1 then (bytes.getD 0 0 : ℤ) - 128
    else if bps = 2 then
      sar (i16ofInt (bytes.getD 0 0 + bytes.getD 1 0 * 256)) 8
    else if bps = 3 then
      let raw := bytes.getD 0 0 + bytes.getD 1 0 * 256 + bytes.getD 2 0 * 65536
      let v : ℤ := if raw &&& 0x800000 ≠ 0 then (raw : ℤ) - 16777216 else raw
      sar v 16
    else
      let raw := leU32 (bytes.getD 0 0) (bytes.getD 1 0) (bytes.getD 2 0) (bytes.getD 3 0)
      let v : ℤ := if raw < 2147483648 then raw else (raw : ℤ) - 4294967296
      sar v 24
  else 0

/-- The sample-array construction of `load_wav_from_path`
(voicegroup_loader.c:968-1034): read up to `size * bps` raw bytes from the
file (`avail` is what the file supplies at the data offset), zero-fill the
missing tail (`memset` at line 985), convert each sample to `int8_t`, and
append the guard byte (line 1034).  Returns the `size + 1` stored bytes. -/
def load_wav_samples (fmtTag bps size : ℕ) (avail : List ℕ) : List ℤ :=
  let rawBytes := size * bps
  let rawData := avail.take rawBytes ++ List.replicate (rawBytes - avail.length) 0
  let data := (List.range size).map
    (fun i => decodeSample fmtTag bps ((rawData.drop (i * bps)).take bps))
  data ++ [if 0 < size then data.getD (size - 1) 0 else 0]

/-- The `WaveData` assembled by `load_wav_from_path`
(voicegroup_loader.c:956-1035) once `size`, the format and the header fields
are known. -/
def load_wav_result (fmtTag bps size loopStart status freq : ℕ)
    (avail : List ℕ) : WaveData :=
  { type := 0, status := status, freq := freq, loopStart := loopStart,
    size := size, data := load_wav_samples fmtTag bps size avail }

/-- The `load_wave_data` (voicegroup_loader.c:1072-1118), the `.bin` loader:
16-byte little-endian header, then `size` signed 8-bit samples; a short read
zero-fills the tail (line 1112) and the guard byte copies the last stored
sample (line 1114).  When `size = 0` that guard assignment reads the
uninitialised `data[0]` malloc byte, modelled by `mallocJunk`. -/
def load_wave_data (file : List ℕ) (mallocJunk : ℤ) : Option WaveData :=
  if file.length < 16 then none
  else
    let b := fun i => file.getD i 0
    let size := leU32 (b 12) (b 13) (b 14) (b 15)
    let body := file.drop 16
    let stored := (body.take size).map i8ofByte ++ List.replicate (size - body.length) 0
    let guard := if 0 < size then stored.getD (size - 1) 0 else mallocJunk
    some { type := b 0 + b 1 * 256, status := b 2 + b 3 * 256,
           freq := leU32 (b 4) (b 5) (b 6) (b 7),
           loopStart := leU32 (b 8) (b 9) (b 10) (b 11),
           size := size, data := stored ++ [guard] }

/-! ## Engine state (m4a_engine.h, m4a_engine.c) -/

/-- The `ToneData` from m4a_engine.h.  The key-split payloads (`subGroup`,
`keySplitTable`) are elided: no claim below exercises `resolve_voice`. -/
structure ToneData where
  type : ℕ
  key : ℕ
  length : ℕ
  panSweep : ℕ
  wav : Option WaveData
  wavePointer : ℕ
  attack : ℕ
  decay : ℕ
  sustain : ℕ
  release : ℕ
deriving Repr, DecidableEq

/-- The `M4ATrack` from m4a_engine.h. -/
structure M4ATrack where
  flags : ℕ
  volume : ℕ
  rawVolume : ℕ
  volX : ℕ
  pan : ℤ
  panX : ℤ
  bend : ℤ
  bendRange : ℕ
  lfoSpeed : ℕ
  lfoSpeedC : ℕ
  lfoDelay : ℕ
  lfoDelayC : ℕ
  mod : ℕ
  modT : ℕ
  modM : ℤ
  keyShift : ℤ
  keyShiftX : ℤ
  tune : ℤ
  pitX : ℕ
  keyM : ℤ
  pitM : ℕ
  volMR : ℕ
  volML : ℕ
  pseudoEchoVolume : ℕ
  pseudoEchoLength : ℕ
  priority : ℕ
  currentProgram : ℕ
  currentVoice : ToneData
deriving Repr, DecidableEq

/-- The `m4a_track_vol_pit_set` (m4a_engine.c:73-104): recompute the track's
left/right volume factors and the `keyM`/`pitM` pitch pair.  `volMR`/`volML`
are `uint8_t` fields, hence the `u8` on their assignments. -/
def m4a_track_vol_pit_set (track : M4ATrack) : M4ATrack :=
  let x : ℤ := ((track.volume * track.volX) >>> 5 : ℕ)
  let x : ℤ := if track.modT = 1 then Int.fdiv (x * (track.modM + 128)) 128 else x
  let y := 2 * track.pan + track.panX
  let y := if track.modT = 2 then y + track.modM else y
  let y := max (-128) (min 127 y)
  let pitchVal := (track.tune + track.bend * track.bendRange) * 4
                + track.keyShift * 256 + track.keyShiftX * 256 + track.pitX
  let pitchVal := if track.modT = 0 then pitchVal + 16 * track.modM else pitchVal
  { track with
    volMR := u8 (((y + 128) * x).toNat >>> 8)
    volML := u8 (((127 - y) * x).toNat >>> 8)
    keyM := i8ofInt (sar pitchVal 8)
    pitM := (pitchVal.emod 256).toNat }

/-- The `chn_vol_set` (m4a_engine.c:109-124): velocity/pan scaling into the PCM
channel's final left/right volumes, saturating at 0xFF. -/
def chn_vol_set (ch : M4APCMChannel) (track : M4ATrack) : M4APCMChannel :=
  let volR := (128 + ch.rhythmPan).toNat * ch.velocity
  let volL := (127 - ch.rhythmPan).toNat * ch.velocity
  { ch with
    rightVolume := min ((volR * track.volMR) >>> 14) 0xFF
    leftVolume := min ((volL * track.volML) >>> 14) 0xFF }

/-- The `cgb_chn_vol_set` (m4a_engine.c:126-141), the CGB twin of `chn_vol_set`. -/
def cgb_chn_vol_set (ch : M4ACGBChannel) (track : M4ATrack) : M4ACGBChannel :=
  let volR := (128 + ch.rhythmPan).toNat * ch.velocity
  let volL := (127 - ch.rhythmPan).toNat * ch.velocity
  { ch with
    rightVolume := min ((volR * track.volMR) >>> 14) 0xFF
    leftVolume := min ((volL * track.volML) >>> 14) 0xFF }

/-- The PCM half of `refresh_channel_pitches` (m4a_engine.c:493-505), applied
to one channel.  Same float idealisation as `m4a_engine_note_on_frequency`. -/
def refreshPcmPitch (track : M4ATrack) (trackIndex : ℕ) (sampleRate : ℚ)
    (ch : M4APCMChannel) : M4APCMChannel :=
  match ch.wav with
  | none => ch
  | some w =>
    if ch.status &&& CHN_ON ≠ 0 ∧ ch.trackIndex = trackIndex then
      let finalKey := u8 (max 0 ((ch.key : ℤ) + track.keyM)).toNat
      let freq := m4a_midi_key_to_freq w finalKey track.pitM
      { ch with frequency :=
          (⌊((freq * engineDivFreq : ℕ) : ℚ) * ((enginePcmFreq : ℚ) / sampleRate)⌋).toNat }
    else ch

/-- The CGB half of `refresh_channel_pitches` (m4a_engine.c:506-519), applied
to one channel: recompute the frequency, preserving NR43 bit 3 for noise. -/
def refreshCgbPitch (track : M4ATrack) (trackIndex : ℕ)
    (ch : M4ACGBChannel) : M4ACGBChannel :=
  if ch.status &&& CHN_ON ≠ 0 ∧ ch.trackIndex = trackIndex then
    let finalKey := u8 (max 0 ((ch.key : ℤ) + track.keyM)).toNat
    let newFreq := m4a_midi_key_to_cgb_freq ch.type finalKey track.pitM
    let newFreq := if ch.type = 4 then newFreq ||| (ch.frequency &&& 0x08) else newFreq
    { ch with frequency := newFreq }
  else ch

/-- The `M4AEngine` from m4a_engine.h.  The `float` fields are idealised as `ℚ`. -/
structure M4AEngine where
  tracks : List M4ATrack
  pcmChannels : List M4APCMChannel
  cgbChannels : List M4ACGBChannel
  reverb : M4AReverb
  sampleRate : ℚ
  samplesPerTick : ℚ
  tickAccumulator : ℚ
  masterVolume : ℕ
  songMasterVolume : ℕ
  maxPcmChannels : ℕ
  c15 : ℕ
  analogFilter : Bool
  lowPassLeft : ℚ
  lowPassRight : ℚ
  tempoD : ℕ
  tempoU : ℕ
  tempoI : ℕ
  tempoC : ℕ
  voiceGroup : Option (List ToneData)
deriving DecidableEq

/-- The `m4a_engine_all_sound_off` (m4a_engine.c:646-652): zero every PCM and CGB
channel status. -/
def m4a_engine_all_sound_off (e : M4AEngine) : M4AEngine :=
  { e with
    pcmChannels := e.pcmChannels.map (fun ch => { ch with status := 0 })
    cgbChannels := e.cgbChannels.map (fun ch => { ch with status := 0 }) }

/-- The `m4a_engine_pitch_bend` (m4a_engine.c:610-624): store the quantised bend
(`(int8_t)(bend >> 7)`), recompute the track's vol/pitch and push the new
pitch into every active channel of the track. -/
def m4a_engine_pitch_bend (e : M4AEngine) (trackIndex bend : ℤ) : M4AEngine :=
  if trackIndex < 0 ∨ 16 ≤ trackIndex then e
  else
    match e.tracks.get? trackIndex.toNat with
    | none => e
    | some tr =>
      let tr := { tr with bend := i8ofInt (sar bend 7) }
      let tr := m4a_track_vol_pit_set tr
      { e with
        tracks := e.tracks.set trackIndex.toNat tr
        pcmChannels := e.pcmChannels.map (refreshPcmPitch tr trackIndex.toNat e.sampleRate)
        cgbChannels := e.cgbChannels.map (refreshCgbPitch tr trackIndex.toNat) }

/-- The scan loop of `allocate_pcm_channel` (m4a_engine.c:263-314).
Arguments mirror the C locals: the remaining channels, `best`,
`bestPriority`, `bestTrackIndex`, `bestIsStopping`; `prio` is the new note's
priority used in the final `priority >= bestPriority` check.  Returns the
channel rather than its address. -/
def allocGo (prio : ℕ) : List M4APCMChannel → Option M4APCMChannel → ℕ → ℕ → Bool →
    Option M4APCMChannel
  | [], best, bp, _bt, stopping =>
    match best with
    | none => none
    | some b => if stopping = true ∨ bp ≤ prio then some b else none
  | ch :: rest, best, bp, bt, stopping =>
    if ch.status &&& CHN_ON = 0 then some ch
    else if ch.status &&& CHN_STOP ≠ 0 then
      if stopping = false then allocGo prio rest (some ch) ch.priority ch.trackIndex true
      else if ch.priority < bp then allocGo prio rest (some ch) ch.priority ch.trackIndex true
      else if ch.priority = bp ∧ bt ≤ ch.trackIndex then
        allocGo prio rest (some ch) bp ch.trackIndex true
      else allocGo prio rest best bp bt true
    else if stopping = false then
      if ch.priority < bp then allocGo prio rest (some ch) ch.priority ch.trackIndex false
      else if ch.priority = bp ∧ bt ≤ ch.trackIndex then
        allocGo prio rest (some ch) bp ch.trackIndex false
      else allocGo prio rest best bp bt false
    else allocGo prio rest best bp bt stopping

/-- The `allocate_pcm_channel` (m4a_engine.c:263-314).  `chs` is the
`engine->pcmChannels[0 .. maxPcmChannels)` prefix the C loop scans. -/
def allocate_pcm_channel (chs : List M4APCMChannel) (priority trackIndex : ℕ) :
    Option M4APCMChannel :=
  allocGo priority chs none priority trackIndex false

/-! ## Concrete states used by witnesses and counterexamples -/

/-- An inert PCM channel with every field zeroed (engine state after
`m4a_engine_init`'s `memset`). -/
def zeroPcmChannel : M4APCMChannel :=
  { status := 0, type := 0, rightVolume := 0, leftVolume := 0, attack := 0,
    decay := 0, sustain := 0, release := 0, key := 0, envelopeVolume := 0,
    envelopeVolumeRight := 0, envelopeVolumeLeft := 0, pseudoEchoVolume := 0,
    pseudoEchoLength := 0, midiKey := 0, velocity := 0, priority := 0,
    rhythmPan := 0, gateTime := 0, wav := none, currentPointer := 0,
    count := 0, fw := 0, frequency := 0, trackIndex := 0, isLoop := false,
    loopLen := 0, loopStart := 0 }

/-- An inert CGB channel with every field zeroed. -/
def zeroCgbChannel : M4ACGBChannel :=
  { status := 0, type := 0, rightVolume := 0, leftVolume := 0, attack := 0,
    decay := 0, sustain := 0, release := 0, key := 0, envelopeVolume := 0,
    envelopeGoal := 0, envelopeCounter := 0, pseudoEchoVolume := 0,
    pseudoEchoLength := 0, midiKey := 0, velocity := 0, priority := 0,
    rhythmPan := 0, gateTime := 0, sustainGoal := 0, length := 0, sweep := 0,
    dutyCycle := 0, pan := 0, panMask := 0, modify := 0, frequency := 0,
    phase := 0, wavePointer := 0, lfsr := 0, trackIndex := 0,
    declickSample := 0, declickSamplesRemaining := 0 }

/-- A zeroed voice. -/
def zeroTone : ToneData :=
  { type := 0, key := 0, length := 0, panSweep := 0, wav := none,
    wavePointer := 0, attack := 0, decay := 0, sustain := 0, release := 0 }

/-- A zeroed track. -/
def zeroTrack : M4ATrack :=
  { flags := 0, volume := 0, rawVolume := 0, volX := 0, pan := 0, panX := 0,
    bend := 0, bendRange := 0, lfoSpeed := 0, lfoSpeedC := 0, lfoDelay := 0,
    lfoDelayC := 0, mod := 0, modT := 0, modM := 0, keyShift := 0,
    keyShiftX := 0, tune := 0, pitX := 0, keyM := 0, pitM := 0, volMR := 0,
    volML := 0, pseudoEchoVolume := 0, pseudoEchoLength := 0, priority := 0,
    currentProgram := 0, currentVoice := zeroTone }

/-- A small reverb state with an allocated (non-NULL) buffer. -/
def sampleReverbState : M4AReverb :=
  { buffer := some [1, 2, 3, 4], bufferSize := 2, frameSize := 1, pos := 0,
    amount := 0 }

/-- A four-sample wave (with guard byte) at base pitch `0x800000`. -/
def sampleWave : WaveData :=
  { type := 0, status := 0, freq := 0x800000, loopStart := 0, size := 4,
    data := [10, 20, 30, 40, 40] }

/-- A small but fully-populated engine state. -/
def sampleEngine : M4AEngine :=
  { tracks := List.replicate 16 zeroTrack,
    pcmChannels := List.replicate 12 zeroPcmChannel,
    cgbChannels := List.replicate 4 zeroCgbChannel,
    reverb := sampleReverbState,
    sampleRate := 26758, samplesPerTick := 448, tickAccumulator := 0,
    masterVolume := 15, songMasterVolume := 127, maxPcmChannels := 5,
    c15 := 14, analogFilter := false, lowPassLeft := 0, lowPassRight := 0,
    tempoD := 150, tempoU := 256, tempoI := 150, tempoC := 0,
    voiceGroup := none }

/-- A PCM channel two attack ticks after a note-on with `attack = 100`
(m4a_pcm_channel_start sets `envelopeVolume = 100`; one tick raises it to
200): mid-attack state reached by ordinary playback. -/
def attackOverflowChannel : M4APCMChannel :=
  { zeroPcmChannel with
    status := CHN_ENV_ATTACK, envelopeVolume := 200, attack := 100,
    rightVolume := 255, leftVolume := 255, sustain := 128, decay := 200,
    release := 200, wav := some sampleWave }

/-- The CgbModVol rule exactly as claim C5 states it: centre (`pan = 0xFF`)
when `|L − R| ≤ max(L,R)/2`, otherwise hard left/right by comparison, with
the goal clamped only in the hard-panned cases; then `pan &= panMask` and
`sustainGoal = (goal * sustain + 15) >> 4`. -/
def spec_cgb_mod_vol (ch : M4ACGBChannel) : M4ACGBChannel :=
  let L := ch.leftVolume
  let R := ch.rightVolume
  let center := max L R - min L R ≤ max L R / 2
  let pan := if center then 0xFF else if R < L then 0xF0 else 0x0F
  let goal := if center then (L + R) / 16 else min ((L + R) / 16) 15
  { ch with
    pan := pan &&& ch.panMask
    envelopeGoal := goal
    sustainGoal := (goal * ch.sustain + 15) >>> 4 }

/-- The CgbModVol rule as amended: the centre condition is
`min(L,R) > max(L,R)/2` (integer division) — so `L = 2, R = 1` or `L = R = 0`
are hard-panned — with everything else as the claim states. -/
def spec_amended_cgb_mod_vol (ch : M4ACGBChannel) : M4ACGBChannel :=
  let L := ch.leftVolume
  let R := ch.rightVolume
  let center := max L R / 2 < min L R
  let pan := if center then 0xFF else if R < L then 0xF0 else 0x0F
  let goal := if center then (L + R) / 16 else min ((L + R) / 16) 15
  { ch with
    pan := pan &&& ch.panMask
    envelopeGoal := goal
    sustainGoal := (goal * ch.sustain + 15) >>> 4 }

/-- A CGB channel (square 1, `panMask = 0x11`) with `L = 2`, `R = 1`. -/
def cgbModVolCounterexample : M4ACGBChannel :=
  { zeroCgbChannel with
    type := 1
    leftVolume := 2
    rightVolume := 1
    panMask := 0x11 }

/-- A CGB channel (square 2, `panMask = 0x22`) with near-centre volumes,
used by the witness of the amended claim C5. -/
def cgbModVolWitnessChannel : M4ACGBChannel :=
  { zeroCgbChannel with
    type := 2
    leftVolume := 200
    rightVolume := 160
    sustain := 10
    panMask := 0x22 }

/-- A looping channel one render step before a multi-wrap: `count = 1`,
`loopLen = 5`, frequency word `12 << 23` (twelve source samples per output
sample). -/
def loopWrapChannel : M4APCMChannel :=
  { zeroPcmChannel with
    status := CHN_ENV_SUSTAIN
    isLoop := true
    loopLen := 5
    count := 1
    frequency := 100663296
    wav := some sampleWave }

/-- An 18-byte `.bin` file declaring 4 samples but supplying only 2
(values 7 and 250). -/
def binShortFile : List ℕ :=
  [0, 0, 0, 0, 0, 0, 0, 0, 0, 0, 0, 0, 4, 0, 0, 0, 7, 250]

/-- An active (Sustain), non-stopping channel of priority 5 owned by track 0. -/
def allocChTrack0 : M4APCMChannel :=
  { zeroPcmChannel with status := CHN_ENV_SUSTAIN, priority := 5, trackIndex := 0 }

/-- An active, non-stopping channel of priority 5 owned by track 2. -/
def allocChTrack2 : M4APCMChannel :=
  { zeroPcmChannel with status := CHN_ENV_SUSTAIN, priority := 5, trackIndex := 2 }

/-- An active, non-stopping channel of priority 5 owned by track 1. -/
def allocChTrack1 : M4APCMChannel :=
  { zeroPcmChannel with status := CHN_ENV_SUSTAIN, priority := 5, trackIndex := 1 }

/-! ## Theorems -/

/-- Claim C6: for every reverb state with `amount = 0` and every pair of
input sample accumulators, `m4a_reverb_process` is the identity on both
accumulators and performs no state change at all — no delay-buffer write and
no advance of the write position. -/
theorem reverb_amount_zero_is_noop (rv : M4AReverb) (sampleL sampleR : ℤ)
    (h : rv.amount = 0) :
    m4a_reverb_process rv sampleL sampleR = (rv, sampleL, sampleR) := by
  unfold m4a_reverb_process
  cases hb : rv.buffer with
  | none => rfl
  | some buf => simp [h]

/-- Witness for C6: the no-op theorem applied to a concrete reverb state
with a live buffer. -/
theorem reverb_amount_zero_is_noop_witness :
    sampleReverbState.amount = 0 ∧
    m4a_reverb_process sampleReverbState 5 (-7) = (sampleReverbState, 5, -7) :=
  ⟨rfl, reverb_amount_zero_is_noop sampleReverbState 5 (-7) rfl⟩

/-- Claim C2 (code bug): on an Attack-stage envelope tick the C code adds
`attack` into the `uint8_t` local `envVol`, so `envelopeVolume = 200`,
`attack = 100` yields `(200 + 100) mod 256 = 44` and the channel stays in
Attack — not `min(200 + 100, 0xFF) = 0xFF` with a drop to Decay as the
spec states.  The state is reachable: two ticks after note-on with
`attack = 100`. -/
theorem pcm_attack_tick_wraps_at_overflow :
    (m4a_pcm_channel_tick attackOverflowChannel 15).envelopeVolume = 44 ∧
    (m4a_pcm_channel_tick attackOverflowChannel 15).status &&& CHN_ENV_MASK = CHN_ENV_ATTACK ∧
    Nat.min (attackOverflowChannel.envelopeVolume + attackOverflowChannel.attack) 0xFF = 0xFF := by
  decide

/-- The `m4a_engine_all_sound_off` is idempotent: applying it twice equals
applying it once (it only zeroes channel statuses). -/
theorem all_sound_off_idem (e : M4AEngine) :
    m4a_engine_all_sound_off (m4a_engine_all_sound_off e) = m4a_engine_all_sound_off e := by
  simp [m4a_engine_all_sound_off, List.map_map, Function.comp_def]

/-- Claim C8: for every engine state and every `N ≥ 1`, calling
`all_sound_off` `N` consecutive times leaves the engine in exactly the same
state as calling it once. -/
theorem all_sound_off_iterate (e : M4AEngine) (n : ℕ) (h : 1 ≤ n) :
    m4a_engine_all_sound_off^[n] e = m4a_engine_all_sound_off e := by
  induction n with
  | zero => omega
  | succ k ih =>
    rcases Nat.eq_zero_or_pos k with hk | hk
    · subst hk; simp
    · rw [Function.iterate_succ_apply', ih hk, all_sound_off_idem]

/-- Witness for C8: three consecutive `all_sound_off` calls on a concrete
engine equal one call. -/
theorem all_sound_off_iterate_witness :
    1 ≤ 3 ∧ m4a_engine_all_sound_off^[3] sampleEngine = m4a_engine_all_sound_off sampleEngine :=
  ⟨by decide, all_sound_off_iterate sampleEngine 3 (by decide)⟩

/-- Claim C10: `pitch_bend` stores only `bend >> 7` (arithmetic shift), so
two bend values with equal quantisations produce identical engine states
from the same starting state. -/
theorem pitch_bend_quantised (e : M4AEngine) (i b1 b2 : ℤ)
    (h : sar b1 7 = sar b2 7) :
    m4a_engine_pitch_bend e i b1 = m4a_engine_pitch_bend e i b2 := by
  unfold m4a_engine_pitch_bend
  rw [h]

/-- Witness for C10: bends +8064 and +8191 (both quantising to 63) produce
identical engine states. -/
theorem pitch_bend_quantised_witness :
    sar 8064 7 = sar 8191 7 ∧
    m4a_engine_pitch_bend sampleEngine 0 8064 = m4a_engine_pitch_bend sampleEngine 0 8191 :=
  ⟨by decide, pitch_bend_quantised sampleEngine 0 8064 8191 (by decide)⟩

/-- Counterexample for C5: at `L = 2`, `R = 1` the claim's condition
`|L − R| = 1 ≤ max(L,R)/2 = 1` predicts the centre pan byte
`0xFF & 0x11 = 0x11`, but `m4a_cgb_mod_vol` hard-pans left
(`L > R` and `L/2 = 1 ≥ R`), giving `0xF0 & 0x11 = 0x10`. -/
theorem cgb_mod_vol_spec_counterexample :
    (m4a_cgb_mod_vol cgbModVolCounterexample).pan = 0x10 ∧
    (spec_cgb_mod_vol cgbModVolCounterexample).pan = 0x11 := by
  decide

/-- Claim C5 as amended: `m4a_cgb_mod_vol` computes exactly the claimed pan
bytes and goals with the centre condition `min(L,R) > max(L,R)/2`, for
volumes in the `uint8_t` range and `sustain` in its real 4-bit range (the
loader stores CGB sustain masked with 0xF; beyond 15 the `uint8_t`
`sustainGoal` field would truncate). -/
theorem cgb_mod_vol_amended (ch : M4ACGBChannel)
    (hL : ch.leftVolume ≤ 255) (hR : ch.rightVolume ≤ 255)
    (hS : ch.sustain ≤ 15) :
    m4a_cgb_mod_vol ch = spec_amended_cgb_mod_vol ch := by
  have hq : (ch.leftVolume + ch.rightVolume) / 16 ≤ 31 := by omega
  have hp1 : (ch.leftVolume + ch.rightVolume) / 16 * ch.sustain ≤ 31 * 15 :=
    Nat.mul_le_mul hq hS
  have hp2 : min ((ch.leftVolume + ch.rightVolume) / 16) 15 * ch.sustain ≤ 15 * 15 :=
    Nat.mul_le_mul (min_le_right _ _) hS
  unfold m4a_cgb_mod_vol cgb_pan spec_amended_cgb_mod_vol
  cases ch with
  | mk a b c d e f g h i j k l m n o p q r s t u v w x y z a1 b1 c1 d1 e1 f1 g1 =>
    simp_all only [u8, Nat.shiftRight_eq_div_pow]
    split_ifs <;> simp_all <;> omega

theorem cgb_mod_vol_amended_witness :
    cgbModVolWitnessChannel.leftVolume ≤ 255 ∧
    m4a_cgb_mod_vol cgbModVolWitnessChannel = spec_amended_cgb_mod_vol cgbModVolWitnessChannel :=
  ⟨by decide, cgb_mod_vol_amended _ (by decide) (by decide) (by decide)⟩

/-- Bounds for the loop-wrap while-loop: starting from a non-positive count,
adding `loopLen > 0` until positive lands in `[1, loopLen]`. -/
theorem wrapCount_bounds (L : ℤ) (hL : 0 < L) (c : ℤ) (hc : c ≤ 0) :
    1 ≤ wrapCount L c ∧ wrapCount L c ≤ L := by
  have main : ∀ n : ℕ, ∀ c : ℤ, (1 - c).toNat ≤ n → c ≤ 0 →
      1 ≤ wrapCount L c ∧ wrapCount L c ≤ L := by
    intro n
    induction n with
    | zero => intro c hn hc; omega
    | succ k ih =>
      intro c hn hc
      rw [wrapCount, dif_pos ⟨hL, hc⟩]
      by_cases hcl : c + L ≤ 0
      · exact ih (c + L) (by omega) hcl
      · rw [wrapCount, dif_neg (by omega)]
        omega
  exact main (1 - c).toNat c le_rfl hc

/-- Claim C7: during per-sample rendering of a looping PCM channel
(`isLoop` set, `loopLen > 0`), whenever the remaining-sample count drops
to ≤ 0 the wrap arithmetic restores `1 ≤ count ≤ loopLen` — for every
frequency word, including increments that skip past the loop end more than
once. -/
theorem pcm_render_loop_wrap (ch : M4APCMChannel) (mixL mixR : ℤ)
    (hOn : ch.status &&& CHN_ON ≠ 0) (hStart : ch.status &&& CHN_START = 0)
    (hLoop : ch.isLoop = true) (hLen : 0 < ch.loopLen)
    (hAdv : u32 (ch.fw + ch.frequency) >>> 23 ≠ 0)
    (hDrop : ch.count - ((u32 (ch.fw + ch.frequency) >>> 23 : ℕ) : ℤ) ≤ 0) :
    1 ≤ (m4a_pcm_channel_render ch mixL mixR).1.count ∧
    (m4a_pcm_channel_render ch mixL mixR).1.count ≤ ch.loopLen := by
  have h1 : ¬(ch.status &&& CHN_ON = 0 ∨ ch.status &&& CHN_START ≠ 0) := by
    push_neg
    exact ⟨hOn, hStart⟩
  have key : (m4a_pcm_channel_render ch mixL mixR).1.count
      = wrapCount ch.loopLen (ch.count - ((u32 (ch.fw + ch.frequency) >>> 23 : ℕ) : ℤ)) := by
    unfold m4a_pcm_channel_render
    rw [if_neg h1]
    simp only [if_neg hAdv, if_pos hDrop, if_pos (And.intro hLoop hLen)]
  rw [key]
  exact wrapCount_bounds ch.loopLen hLen _ hDrop

/-- Witness for C7: the wrap theorem applied to `loopWrapChannel`, whose
single increment of 12 samples skips past the loop end twice. -/
theorem pcm_render_loop_wrap_witness :
    u32 (loopWrapChannel.fw + loopWrapChannel.frequency) >>> 23 = 12 ∧
    (1 ≤ (m4a_pcm_channel_render loopWrapChannel 0 0).1.count ∧
     (m4a_pcm_channel_render loopWrapChannel 0 0).1.count ≤ loopWrapChannel.loopLen) :=
  ⟨by decide,
   pcm_render_loop_wrap loopWrapChannel 0 0 (by decide) (by decide) (by decide)
     (by decide) (by decide) (by decide)⟩

/-- The integer `pcmFreq` computation at m4a_engine.c:429 yields exactly the
nominal 13379 Hz GBA PCM rate. -/
theorem enginePcmFreq_eq : enginePcmFreq = 13379 := by decide

/-- The integer `divFreq` computation at m4a_engine.c:439 yields 627. -/
theorem engineDivFreq_eq : engineDivFreq = 627 := by decide

/-- The `round(2^24 / 13379 / 2) = 627`, the claim's `divFreq` — it agrees with
the code's integer computation. -/
theorem round_divFreq_eq : round ((2 ^ 24 : ℚ) / 13379 / 2) = 627 := by
  rw [round_eq, Int.floor_eq_iff]
  constructor <;> norm_num

/-- Counterexample for C1: at host rate 26758 (= 2 × 13379) a FIX voice gets
the frequency word `0x800000 * 13379 / 26758 = 0x400000` from the code,
while the claim's formula `0x800000 * host_rate / 13379` demands
`0x1000000`. -/
theorem note_on_frequency_spec_counterexample :
    m4a_engine_note_on_frequency 0x08 sampleWave 60 0 26758 = 0x400000 ∧
    spec_note_on_frequency 0x08 sampleWave 60 0 26758 = 0x1000000 := by
  constructor
  · unfold m4a_engine_note_on_frequency
    rw [if_pos (by decide), enginePcmFreq_eq]
    norm_num
    decide
  · unfold spec_note_on_frequency
    rw [if_pos (by decide)]
    norm_num
    decide

/-- Claim C1 as amended: the note-on frequency words are as the claim
states but with the host-rate ratio inverted — `pcmFreq / host_rate`
(`pcmFreq = 13379`), not `host_rate / 13379` — in both the FIX and the
resampled case (float arithmetic idealised as exact). -/
theorem note_on_frequency_amended (voiceType : ℕ) (wav : WaveData)
    (finalKey pitM : ℕ) (srate : ℚ) (h : 0 < srate) :
    m4a_engine_note_on_frequency voiceType wav finalKey pitM srate =
    spec_amended_note_on_frequency voiceType wav finalKey pitM srate := by
  unfold m4a_engine_note_on_frequency spec_amended_note_on_frequency
  rw [enginePcmFreq_eq, engineDivFreq_eq, round_divFreq_eq]
  split_ifs with hfix
  · congr 1
    congr 1
    push_cast
    ring
  · congr 1
    congr 1
    push_cast
    ring

/-- Witness for C1 (amended): the theorem applied to a non-FIX DirectSound
voice at host rate 26758. -/
theorem note_on_frequency_amended_witness :
    (0 : ℚ) < 26758 ∧
    m4a_engine_note_on_frequency 0 sampleWave 60 0 26758 =
      spec_amended_note_on_frequency 0 sampleWave 60 0 26758 :=
  ⟨by norm_num, note_on_frequency_amended 0 sampleWave 60 0 26758 (by norm_num)⟩

/-- Counterexample for C3: an `agbp` chunk that is *present with value 0* is
treated as absent by the code (`if (agbPitch != 0)`), so a .wav at 8000 Hz
with default root key 60 stores `8000 * 1024 = 8192000`, while the claim
("if an agbp chunk is present the stored pitch word equals the agbp value")
demands 0. -/
theorem wav_pitch_word_spec_counterexample :
    load_wav_pitch_word (some 0) 60 0 8000 = 8192000 ∧
    spec_wav_pitch_word (some 0) 60 0 8000 = 0 := by
  constructor
  · unfold load_wav_pitch_word
    norm_num
  · rfl

/-- Claim C3 as amended: the `agbp` value wins only when nonzero; the other
branches store the truncated (not rounded) double computation, whose
pitch-fraction exponent term is `((frac/2^32)/100)/1200`. -/
theorem wav_pitch_word_amended (agbp : Option ℕ)
    (midiKey midiPitchFraction sampleRate : ℕ) :
    load_wav_pitch_word agbp midiKey midiPitchFraction sampleRate =
    spec_amended_wav_pitch_word agbp midiKey midiPitchFraction sampleRate := by
  unfold load_wav_pitch_word spec_amended_wav_pitch_word
  by_cases h1 : agbp.getD 0 ≠ 0
  · simp only [if_pos h1]
  · simp only [if_neg h1]
    by_cases h2 : midiKey = 60 ∧ midiPitchFraction = 0
    · simp only [if_pos h2]
    · simp only [if_neg h2]
      have he : ((60 : ℝ) - midiKey) / 12 + ((midiPitchFraction : ℝ) / (4294967296 * 100)) / 1200
          = ((60 : ℝ) - midiKey) / 12 + (((midiPitchFraction : ℝ) / 4294967296) / 100) / 1200 := by
        ring
      rw [he]
      congr 2
      ring

/-- The `getD` inside a replicate block. -/
theorem list_getD_replicate {α : Type} (a d : α) :
    ∀ k j, j < k → (List.replicate k a).getD j d = a
  | k + 1, 0, _ => rfl
  | k + 1, j + 1, h => list_getD_replicate a d k j (by omega)

/-- Facts about appending the guard byte: length, guard equals the last
stored sample, and indices below `size` read the stored array. -/
theorem guard_append_facts (stored : List ℤ) (size : ℕ) (junk : ℤ)
    (hslen : stored.length = size) (hpos : 0 < size) :
    ((stored ++ [if 0 < size then stored.getD (size - 1) 0 else junk]).length = size + 1) ∧
    ((stored ++ [if 0 < size then stored.getD (size - 1) 0 else junk]).getD size 99 =
      (stored ++ [if 0 < size then stored.getD (size - 1) 0 else junk]).getD (size - 1) 99) ∧
    (∀ i, i < size → (stored ++ [if 0 < size then stored.getD (size - 1) 0 else junk]).getD i 99 =
      stored.getD i 99) := by
  refine ⟨by simp [hslen], ?_, ?_⟩
  · rw [List.getD_append_right _ _ _ _ (by omega), hslen, Nat.sub_self]
    rw [List.getD_append _ _ _ _ (by omega), if_pos hpos]
    have h1 : size - 1 < stored.length := by omega
    simp only [List.getD]
    rw [List.get?_eq_get h1]
    rfl
  · intro i hi
    rw [List.getD_append _ _ _ _ (by omega)]

/-- The stored `.bin` sample array has length `size` and zeros past the
supplied bytes. -/
theorem bin_stored_facts (body : List ℕ) (size : ℕ) (hlt : body.length < size) :
    (((body.take size).map i8ofByte ++ List.replicate (size - body.length) 0).length = size) ∧
    (∀ i, body.length ≤ i → i < size →
      ((body.take size).map i8ofByte ++ List.replicate (size - body.length) 0).getD i 99 = 0) := by
  have htake : body.take size = body := List.take_of_length_le (by omega)
  rw [htake]
  constructor
  · simp
    omega
  · intro i h1 h2
    rw [List.getD_append_right _ _ _ _ (by simp; omega)]
    apply list_getD_replicate
    simp
    omega

/-- The converted .wav sample array: length `size`, and every sample lying
fully past the supplied bytes decodes the zero-filled raw tail. -/
theorem wav_stored_facts (fmtTag bps size : ℕ) (avail : List ℕ)
    (hav : avail.length < size * bps) :
    (((List.range size).map (fun i => decodeSample fmtTag bps
        (((avail.take (size * bps) ++ List.replicate (size * bps - avail.length) 0).drop
          (i * bps)).take bps))).length = size) ∧
    (∀ i, avail.length ≤ i * bps → i < size →
      ((List.range size).map (fun i => decodeSample fmtTag bps
        (((avail.take (size * bps) ++ List.replicate (size * bps - avail.length) 0).drop
          (i * bps)).take bps))).getD i 99
        = decodeSample fmtTag bps (List.replicate bps 0)) := by
  constructor
  · simp
  · intro i h1 h2
    rw [List.getD_eq_getElem _ _ (by simpa using h2)]
    simp only [List.getElem_map, List.getElem_range]
    congr 1
    have htake : avail.take (size * bps) = avail := List.take_of_length_le (by omega)
    rw [htake]
    have hsplit : i * bps = avail.length + (i * bps - avail.length) := by omega
    rw [hsplit, List.drop_append, List.drop_replicate, List.take_replicate]
    have hmul : i * bps + bps ≤ size * bps := by
      have hstep := Nat.mul_le_mul_right bps (show i + 1 ≤ size by omega)
      rw [Nat.succ_mul] at hstep
      exact hstep
    congr 1
    omega

/-- The short-read behaviour of the .wav sample construction
(voicegroup_loader.c:968-1034): full declared size plus guard, fully-missing
samples decode the zero fill, and the guard byte equals the last stored
sample. -/
theorem load_wav_samples_short (fmtTag bps size : ℕ) (avail : List ℕ)
    (hpos : 0 < size) (hav : avail.length < size * bps) :
    (load_wav_samples fmtTag bps size avail).length = size + 1 ∧
    (∀ i, avail.length ≤ i * bps → i < size →
      (load_wav_samples fmtTag bps size avail).getD i 99 =
        decodeSample fmtTag bps (List.replicate bps 0)) ∧
    (load_wav_samples fmtTag bps size avail).getD size 99 =
      (load_wav_samples fmtTag bps size avail).getD (size - 1) 99 := by
  obtain ⟨hlen, htail⟩ := wav_stored_facts fmtTag bps size avail hav
  obtain ⟨g1, g2, g3⟩ := guard_append_facts _ size 0 hlen hpos
  exact ⟨g1, fun i h1 h2 => (g3 i h2).trans (htail i h1 h2), g2⟩

/-- The `.bin` loader on a file whose body is shorter than the declared
`size` header field: no error, full declared size, zero-filled tail, and a
guard byte equal to the last stored sample. -/
theorem load_wave_data_short (file : List ℕ) (junk : ℤ)
    (h16 : 16 ≤ file.length)
    (hshort : file.length - 16 <
      leU32 (file.getD 12 0) (file.getD 13 0) (file.getD 14 0) (file.getD 15 0)) :
    ∃ wd, load_wave_data file junk = some wd ∧
      wd.size = leU32 (file.getD 12 0) (file.getD 13 0) (file.getD 14 0) (file.getD 15 0) ∧
      wd.data.length = wd.size + 1 ∧
      (∀ i, file.length - 16 ≤ i → i < wd.size → wd.data.getD i 99 = 0) ∧
      wd.data.getD wd.size 99 = wd.data.getD (wd.size - 1) 99 := by
  have hnot : ¬(file.length < 16) := by omega
  have hbl : (file.drop 16).length = file.length - 16 := by simp
  obtain ⟨hsl, hstz⟩ := bin_stored_facts (file.drop 16)
    (leU32 (file.getD 12 0) (file.getD 13 0) (file.getD 14 0) (file.getD 15 0)) (by omega)
  obtain ⟨g1, g2, g3⟩ := guard_append_facts _ _ junk hsl (by omega)
  unfold load_wave_data
  rw [if_neg hnot]
  refine ⟨_, rfl, rfl, g1, ?_, g2⟩
  intro i h1 h2
  exact (g3 i h2).trans (hstz i (by omega) h2)

/-- Claim C9: when a sample file supplies fewer sample bytes than its
declared sample count — a .bin shorter than its header's `size` field, or a
.wav whose data chunk is short — the loader reports no error: it zero-fills
the missing raw tail, still writes the trailing guard byte equal to the last
stored sample, and returns a WaveData of the full declared size (for .wav,
fully-missing samples hold the decoded zero bytes). -/
theorem short_sample_files_zero_filled :
    (∀ (file : List ℕ) (junk : ℤ),
      16 ≤ file.length →
      file.length - 16 <
        leU32 (file.getD 12 0) (file.getD 13 0) (file.getD 14 0) (file.getD 15 0) →
      ∃ wd, load_wave_data file junk = some wd ∧
        wd.size = leU32 (file.getD 12 0) (file.getD 13 0) (file.getD 14 0) (file.getD 15 0) ∧
        wd.data.length = wd.size + 1 ∧
        (∀ i, file.length - 16 ≤ i → i < wd.size → wd.data.getD i 99 = 0) ∧
        wd.data.getD wd.size 99 = wd.data.getD (wd.size - 1) 99) ∧
    (∀ (fmtTag bps size : ℕ) (avail : List ℕ), 0 < size → avail.length < size * bps →
      (load_wav_result fmtTag bps size 0 0 0 avail).size = size ∧
      (load_wav_samples fmtTag bps size avail).length = size + 1 ∧
      (∀ i, avail.length ≤ i * bps → i < size →
        (load_wav_samples fmtTag bps size avail).getD i 99 =
          decodeSample fmtTag bps (List.replicate bps 0)) ∧
      (load_wav_samples fmtTag bps size avail).getD size 99 =
        (load_wav_samples fmtTag bps size avail).getD (size - 1) 99) :=
  ⟨fun file junk h1 h2 => load_wave_data_short file junk h1 h2,
   fun fmtTag bps size avail hp ha =>
     ⟨rfl,
      (load_wav_samples_short fmtTag bps size avail hp ha).1,
      (load_wav_samples_short fmtTag bps size avail hp ha).2.1,
      (load_wav_samples_short fmtTag bps size avail hp ha).2.2⟩⟩

/-- Witness for C9: the theorem applied to `binShortFile` and to a s16 .wav
data chunk declaring 3 samples but supplying a single byte. -/
theorem short_sample_files_zero_filled_witness :
    (∃ wd, load_wave_data binShortFile 77 = some wd ∧
      wd.size = leU32 (binShortFile.getD 12 0) (binShortFile.getD 13 0)
        (binShortFile.getD 14 0) (binShortFile.getD 15 0) ∧
      wd.data.length = wd.size + 1 ∧
      (∀ i, binShortFile.length - 16 ≤ i → i < wd.size → wd.data.getD i 99 = 0) ∧
      wd.data.getD wd.size 99 = wd.data.getD (wd.size - 1) 99) ∧
    ((load_wav_result 1 2 3 0 0 0 [5]).size = 3 ∧
      (load_wav_samples 1 2 3 [5]).length = 3 + 1 ∧
      (∀ i, ([5] : List ℕ).length ≤ i * 2 → i < 3 →
        (load_wav_samples 1 2 3 [5]).getD i 99 = decodeSample 1 2 (List.replicate 2 0)) ∧
      (load_wav_samples 1 2 3 [5]).getD 3 99 = (load_wav_samples 1 2 3 [5]).getD (3 - 1) 99) :=
  ⟨short_sample_files_zero_filled.1 binShortFile 77 (by decide) (by decide),
   short_sample_files_zero_filled.2 1 2 3 [5] (by decide) (by decide)⟩

/-- One scan step of `allocate_pcm_channel` over an active, non-stopping
channel reduces to the `bestPriority`/`bestTrackIndex` comparison. -/
theorem allocGo_active_step (prio : ℕ) (ch : M4APCMChannel)
    (rest : List M4APCMChannel) (best : Option M4APCMChannel) (bp bt : ℕ)
    (hon : ch.status &&& CHN_ON ≠ 0) (hstop : ch.status &&& CHN_STOP = 0) :
    allocGo prio (ch :: rest) best bp bt false =
      if ch.priority < bp then allocGo prio rest (some ch) ch.priority ch.trackIndex false
      else if ch.priority = bp ∧ bt ≤ ch.trackIndex then
        allocGo prio rest (some ch) bp ch.trackIndex false
      else allocGo prio rest best bp bt false := by
  conv_lhs => rw [allocGo]
  rw [if_neg hon, if_neg (by simp [hstop]), if_pos rfl]

/-- When every remaining channel is active, non-stopping, of priority
`p ≤ prio`, and owned by a track below `bestTrackIndex`, the scan keeps the
incumbent `best`. -/
theorem allocGo_keeps_best (prio p : ℕ) (hq : p ≤ prio) :
    ∀ (chs : List M4APCMChannel),
      (∀ ch ∈ chs, ch.status &&& CHN_ON ≠ 0 ∧ ch.status &&& CHN_STOP = 0 ∧ ch.priority = p) →
    ∀ (best : Option M4APCMChannel) (bt : ℕ),
      (∀ ch ∈ chs, ch.trackIndex < bt) →
      allocGo prio chs best p bt false = best := by
  intro chs
  induction chs with
  | nil =>
    intro _ best bt _
    cases best with
    | none => rfl
    | some b => simp [allocGo, hq]
  | cons ch rest ih =>
    intro hall best bt hlt
    obtain ⟨hon, hstop, hp⟩ := hall ch (by simp)
    rw [allocGo_active_step prio ch rest best p bt hon hstop]
    rw [if_neg (by omega), if_neg (by
      have := hlt ch (by simp)
      omega)]
    exact ih (fun c hc => hall c (by simp [hc])) best bt (fun c hc => hlt c (by simp [hc]))

/-- When every remaining channel is active, non-stopping and of priority
`p ≤ prio`, and some remaining channel's track index reaches
`bestTrackIndex`, the scan returns a channel whose track index dominates all
remaining channels. -/
theorem allocGo_steals_max (prio p : ℕ) (hq : p ≤ prio) :
    ∀ (chs : List M4APCMChannel),
      (∀ ch ∈ chs, ch.status &&& CHN_ON ≠ 0 ∧ ch.status &&& CHN_STOP = 0 ∧ ch.priority = p) →
    ∀ (best : Option M4APCMChannel) (bt : ℕ),
      (∃ ch ∈ chs, bt ≤ ch.trackIndex) →
      ∃ c, allocGo prio chs best p bt false = some c ∧ c ∈ chs ∧ bt ≤ c.trackIndex ∧
        ∀ ch ∈ chs, ch.trackIndex ≤ c.trackIndex := by
  intro chs
  induction chs with
  | nil =>
    rintro _ best bt ⟨ch, hch, -⟩
    simp at hch
  | cons ch rest ih =>
    intro hall best bt hex
    obtain ⟨hon, hstop, hp⟩ := hall ch (by simp)
    have hallr : ∀ c ∈ rest, c.status &&& CHN_ON ≠ 0 ∧ c.status &&& CHN_STOP = 0 ∧ c.priority = p :=
      fun c hc => hall c (by simp [hc])
    rw [allocGo_active_step prio ch rest best p bt hon hstop]
    rw [if_neg (by omega)]
    by_cases hle : bt ≤ ch.trackIndex
    · rw [if_pos ⟨hp, hle⟩]
      by_cases hex2 : ∃ c ∈ rest, ch.trackIndex ≤ c.trackIndex
      · obtain ⟨c, hceq, hcm, hcge, hcmax⟩ := ih hallr (some ch) ch.trackIndex hex2
        refine ⟨c, hceq, by simp [hcm], le_trans hle hcge, ?_⟩
        intro d hd
        rcases List.mem_cons.1 hd with hd | hd
        · subst hd; exact hcge
        · exact hcmax d hd
      · push_neg at hex2
        rw [allocGo_keeps_best prio p hq rest hallr (some ch) ch.trackIndex hex2]
        refine ⟨ch, rfl, by simp, hle, ?_⟩
        intro d hd
        rcases List.mem_cons.1 hd with hd | hd
        · subst hd; exact le_rfl
        · exact le_of_lt (hex2 d hd)
    · rw [if_neg (by
        intro hcontra
        exact hle hcontra.2)]
      have hex' : ∃ c ∈ rest, bt ≤ c.trackIndex := by
        obtain ⟨c, hc, hcle⟩ := hex
        rcases List.mem_cons.1 hc with hc | hc
        · subst hc; exact absurd hcle hle
        · exact ⟨c, hc, hcle⟩
      obtain ⟨c, hceq, hcm, hcge, hcmax⟩ := ih hallr best bt hex'
      refine ⟨c, hceq, by simp [hcm], hcge, ?_⟩
      intro d hd
      rcases List.mem_cons.1 hd with hd | hd
      · rw [hd]
        omega
      · exact hcmax d hd

/-- Counterexample for C4: two active non-stopping channels of equal
priority 5, both owned by track 0; a note-on from track 1 at the same
priority steals nothing — `allocate_pcm_channel` returns `none` because the
initial `bestTrackIndex` is the *requesting* track's index — though the
claim says the channel with the highest owning track index is stolen. -/
theorem allocate_equal_priority_counterexample :
    allocate_pcm_channel [allocChTrack0, allocChTrack0] 5 1 = none := by
  decide

/-- Claim C4 as amended: with every channel in `[0, maxPcmChannels)` active,
not stopping and of equal priority `p`, a note-on of strictly higher
priority always steals a channel; at equal priority the channel with the
highest owning track index is stolen *provided some owning track index is at
least the requesting track's index* — otherwise nothing is stolen. -/
theorem allocate_equal_priority_amended (chs : List M4APCMChannel) (p prio t : ℕ)
    (hne : chs ≠ [])
    (hall : ∀ ch ∈ chs, ch.status &&& CHN_ON ≠ 0 ∧ ch.status &&& CHN_STOP = 0 ∧ ch.priority = p) :
    (p < prio → ∃ c, allocate_pcm_channel chs prio t = some c ∧ c ∈ chs) ∧
    (prio = p →
      ((∃ ch ∈ chs, t ≤ ch.trackIndex) →
        ∃ c, allocate_pcm_channel chs prio t = some c ∧ c ∈ chs ∧
          ∀ ch ∈ chs, ch.trackIndex ≤ c.trackIndex) ∧
      ((∀ ch ∈ chs, ch.trackIndex < t) → allocate_pcm_channel chs prio t = none)) := by
  constructor
  · intro hlt
    obtain ⟨ch, rest, rfl⟩ := List.exists_cons_of_ne_nil hne
    obtain ⟨hon, hstop, hp⟩ := hall ch (by simp)
    have hallr : ∀ c ∈ rest, c.status &&& CHN_ON ≠ 0 ∧ c.status &&& CHN_STOP = 0 ∧ c.priority = p :=
      fun c hc => hall c (by simp [hc])
    unfold allocate_pcm_channel
    rw [allocGo_active_step prio ch rest none prio t hon hstop, if_pos (by omega), hp]
    by_cases hex2 : ∃ c ∈ rest, ch.trackIndex ≤ c.trackIndex
    · obtain ⟨c, hceq, hcm, -, -⟩ :=
        allocGo_steals_max prio p (le_of_lt hlt) rest hallr (some ch) ch.trackIndex hex2
      exact ⟨c, hceq, by simp [hcm]⟩
    · push_neg at hex2
      rw [allocGo_keeps_best prio p (le_of_lt hlt) rest hallr (some ch) ch.trackIndex hex2]
      exact ⟨ch, rfl, by simp⟩
  · intro hpe
    subst hpe
    constructor
    · intro hex
      obtain ⟨c, hceq, hcm, -, hcmax⟩ :=
        allocGo_steals_max prio prio le_rfl chs hall none t hex
      exact ⟨c, hceq, hcm, hcmax⟩
    · intro hallt
      exact allocGo_keeps_best prio prio le_rfl chs hall none t hallt

/-- Witness for C4 (amended): channels on tracks 2 and 1 at priority 5 —
a priority-7 note from track 0 steals; a priority-5 note from track 2 steals
the track-2 channel; a priority-5 note from track 9 steals nothing. -/
theorem allocate_equal_priority_amended_witness :
    (∃ c, allocate_pcm_channel [allocChTrack2, allocChTrack1] 7 0 = some c ∧
      c ∈ [allocChTrack2, allocChTrack1]) ∧
    (∃ c, allocate_pcm_channel [allocChTrack2, allocChTrack1] 5 2 = some c ∧
      c ∈ [allocChTrack2, allocChTrack1] ∧
      ∀ ch ∈ [allocChTrack2, allocChTrack1], ch.trackIndex ≤ c.trackIndex) ∧
    allocate_pcm_channel [allocChTrack2, allocChTrack1] 5 9 = none :=
  ⟨(allocate_equal_priority_amended [allocChTrack2, allocChTrack1] 5 7 0
      (by decide) (by decide)).1 (by decide),
   ((allocate_equal_priority_amended [allocChTrack2, allocChTrack1] 5 5 2
      (by decide) (by decide)).2 rfl).1 ⟨allocChTrack2, by decide⟩,
   ((allocate_equal_priority_amended [allocChTrack2, allocChTrack1] 5 5 9
      (by decide) (by decide)).2 rfl).2 (by decide)⟩
